import Mathlib

/-
Verification of the ER-LwF continual-learning training step implemented in
models/er_lwf.py and models/temp.py.

Tensors are modelled over the reals: a batch of logits is a List (List Real),
one row per sample, one column per class.  The external collaborators
(backbone network, loss criterion, optimizer, replay buffer) are abstracted
as functions and data carried in a state record; the code under verification
is the glue in ERLwF.observe that combines them, exactly as written in
models/er_lwf.py lines 254-290.  Gradient computation and the numeric
kernels (exp, log, softmax) are the ML framework's responsibility; they are
given their exact real-number semantics here.
-/

/-- Batch of real logits: one row per sample. -/
abbrev Mat : Type := List (List ℝ)

/-- Elementwise division of a logits tensor by a temperature, the semantics
of the expression logits / temperature on a B x C tensor. -/
noncomputable def scaleDiv (m : Mat) (t : ℝ) : Mat :=
  m.map (fun r => r.map (fun x => x / t))

/-- Sum of exponentials of one row, the softmax denominator. -/
noncomputable def sumExp (r : List ℝ) : ℝ :=
  (r.map Real.exp).sum

/-- Real-number semantics of F.log_softmax on one row:
entry x becomes x - log (sum of exp over the row). -/
noncomputable def log_softmax_row (r : List ℝ) : List ℝ :=
  r.map (fun x => x - Real.log (sumExp r))

/-- F.log_softmax with dim = -1: applied to every row of the batch. -/
noncomputable def log_softmax (m : Mat) : Mat :=
  m.map log_softmax_row

/-- Elementwise exponential, the semantics of Tensor.exp. -/
noncomputable def texp (m : Mat) : Mat :=
  m.map (fun r => r.map Real.exp)

/-- F.kl_div(input, target) with reduction batchmean and log_target False:
the pointwise contribution is target * (log target - input); contributions
are summed over all entries and divided by the batch size, the number of
rows of the input. -/
noncomputable def kl_div_batchmean (input target : Mat) : ℝ :=
  (List.zipWith (fun ri ti =>
      (List.zipWith (fun x y => y * (Real.log y - x)) ri ti).sum) input target).sum
    / (input.length : ℝ)

/-- Embedding of kl_divergence_stable (models/er_lwf.py lines 47-70):
temperature-scale both logits, take log_softmax of each, and feed the
student log-probabilities and the exponentiated teacher log-probabilities
to F.kl_div with reduction batchmean. -/
noncomputable def kl_divergence_stable (logits_student logits_teacher : Mat)
    (temperature : ℝ) : ℝ :=
  let scaled_logits_student := scaleDiv logits_student temperature
  let scaled_logits_teacher := scaleDiv logits_teacher temperature
  let log_p_student := log_softmax scaled_logits_student
  let log_p_teacher := log_softmax scaled_logits_teacher
  kl_div_batchmean log_p_student (texp log_p_teacher)

/-- 0-dimensional tensor holding a loss value; item() extracts the scalar. -/
structure Tensor0 where
  val : ℝ

/-- Tensor.item() on a 0-dimensional tensor. -/
def Tensor0.item (t : Tensor0) : ℝ := t.val

/-- Model and training state visible to ERLwF.observe.  The type I is the
type of one input sample, L the type of one label.  net and old_net are the
forward passes of the backbone and of the teacher on a batch; lossFn is the
loss criterion self.loss; optStep abstracts loss.backward() followed by
self.opt.step() acting on the network parameters (gradient computation is
the framework's responsibility, a declared non-goal); buf_inputs,
buf_inputs_aug and buf_labels are the triple returned by
buffer.get_data(minibatch_size, transform, device, return_not_aug = True),
in that order, and bufferEmpty is buffer.is_empty(). -/
structure ObserveState (I L : Type) where
  net : List I → Mat
  old_net : List I → Mat
  lossFn : Mat → List L → ℝ
  netParams : List ℝ
  oldParams : List ℝ
  optStep : List ℝ → List ℝ
  bufferEmpty : Bool
  buf_inputs : List I
  buf_inputs_aug : List I
  buf_labels : List L
  alpha : ℝ
  softmax_temp : ℝ
  gamma : ℝ

/-- Observable effects of one observe call: the scalar returned by
loss.item(), the network and teacher parameters afterwards, and the list of
(examples, labels) argument pairs of the buffer.add_data calls made. -/
structure ObserveResult (I L : Type) where
  retVal : ℝ
  netParams : List ℝ
  oldParams : List ℝ
  addDataCalls : List (List I × List L)

/-- Embedding of ERLwF._update_teacher (models/er_lwf.py lines 118-122):
for each pair in zip(net.parameters(), old_net.parameters()) the teacher
parameter becomes gamma * p_t + (1 - gamma) * p_s; teacher parameters
beyond the zipped prefix are untouched. -/
def ERLwF.update_teacher (gamma : ℝ) (netParams oldParams : List ℝ) :
    List ℝ :=
  List.zipWith (fun ps pt => gamma * pt + (1 - gamma) * ps) netParams oldParams
    ++ oldParams.drop netParams.length

/-- Embedding of ERLwF.observe (models/er_lwf.py lines 254-290).  When the
buffer is not empty, the batch, the not-augmented batch and the labels are
each extended with the corresponding component of the get_data triple; the
loss is the criterion on the (extended) batch plus alpha / 4 times the
stable KL distillation term against old_net on the (extended) not-augmented
batch; then backward and optimizer step run, add_data stores the original
not_aug_inputs with the first real_batch_size labels, and the teacher is
EMA-updated when gamma is positive. -/
noncomputable def ERLwF.observe {I L : Type} (s : ObserveState I L)
    (inputs : List I) (labels : List L) (not_aug_inputs : List I)
    (epoch : Option Nat) : ObserveResult I L :=
  let real_batch_size := inputs.length
  let temp := not_aug_inputs
  -- self.opt.zero_grad(): clears gradient state, absorbed into optStep
  let itl :=
    if s.bufferEmpty then (inputs, temp, labels)
    else (inputs ++ s.buf_inputs_aug, not_aug_inputs ++ s.buf_inputs,
          labels ++ s.buf_labels)
  let outputs := s.net itl.1
  let loss := s.lossFn outputs itl.2.2
  let logits := s.old_net itl.2.1
  let lossT : Tensor0 :=
    ⟨loss + s.alpha / 4 * kl_divergence_stable outputs logits s.softmax_temp⟩
  -- loss.backward(); self.opt.step()
  let netParamsAfter := s.optStep s.netParams
  let calls := [(not_aug_inputs, itl.2.2.take real_batch_size)]
  let oldParamsAfter :=
    if s.gamma > 0 then ERLwF.update_teacher s.gamma netParamsAfter s.oldParams
    else s.oldParams
  { retVal := lossT.item, netParams := netParamsAfter,
    oldParams := oldParamsAfter, addDataCalls := calls }

/-- The loss tensor that ERLwF.observe builds just before calling item(). -/
noncomputable def ERLwF.observe_loss {I L : Type} (s : ObserveState I L)
    (inputs : List I) (labels : List L) (not_aug_inputs : List I) : Tensor0 :=
  let itl :=
    if s.bufferEmpty then (inputs, not_aug_inputs, labels)
    else (inputs ++ s.buf_inputs_aug, not_aug_inputs ++ s.buf_inputs,
          labels ++ s.buf_labels)
  ⟨s.lossFn (s.net itl.1) itl.2.2
    + s.alpha / 4 * kl_divergence_stable (s.net itl.1) (s.old_net itl.2.1)
        s.softmax_temp⟩

/-- Embedding of the free function observe written in models/temp.py
lines 4-38, whose body is the same statement sequence as
ERLwF.observe in models/er_lwf.py. -/
noncomputable def temp.observe {I L : Type} (self : ObserveState I L)
    (inputs : List I) (labels : List L) (not_aug_inputs : List I)
    (epoch : Option Nat) : ObserveResult I L :=
  let real_batch_size := inputs.length
  let temp := not_aug_inputs
  let itl :=
    if self.bufferEmpty then (inputs, temp, labels)
    else (inputs ++ self.buf_inputs_aug, not_aug_inputs ++ self.buf_inputs,
          labels ++ self.buf_labels)
  let outputs := self.net itl.1
  let loss := self.lossFn outputs itl.2.2
  let logits := self.old_net itl.2.1
  let lossT : Tensor0 :=
    ⟨loss + self.alpha / 4 * kl_divergence_stable outputs logits
        self.softmax_temp⟩
  let netParamsAfter := self.optStep self.netParams
  let calls := [(not_aug_inputs, itl.2.2.take real_batch_size)]
  let oldParamsAfter :=
    if self.gamma > 0 then
      ERLwF.update_teacher self.gamma netParamsAfter self.oldParams
    else self.oldParams
  { retVal := lossT.item, netParams := netParamsAfter,
    oldParams := oldParamsAfter, addDataCalls := calls }

/-- One network parameter tensor: its value and its requires_grad flag. -/
structure Param where
  data : ℝ
  requires_grad : Bool

/-- A network as a bag of parameters plus its training-mode flag. -/
structure Net where
  params : List Param
  training : Bool

/-- Embedding of ERLwF.begin_task (models/er_lwf.py lines 106-115), as the
teacher it installs: old_net = deepcopy(net); every parameter of old_net
gets requires_grad = False; then old_net.train(). -/
def ERLwF.begin_task (net : Net) : Net :=
  let old_net := net
  let old_net :=
    { old_net with
      params := old_net.params.map
        (fun (p : Param) => { p with requires_grad := false }) }
  { old_net with training := true }

/-- Arguments added by ERLwF.get_parser with their declared defaults
(models/er_lwf.py lines 88-92): alpha defaults to 0.5, softmax_temp to 2
and ema to 0.0.  The rehearsal arguments come from add_rehearsal_args, an
external collaborator, and are not needed here. -/
structure Args where
  alpha : ℝ
  softmax_temp : ℝ
  ema : ℝ

/-- Default values declared in ERLwF.get_parser. -/
noncomputable def ERLwF.parser_defaults : Args :=
  { alpha := 0.5, softmax_temp := 2, ema := 0 }

/-- self.gamma = self.args.ema (models/er_lwf.py line 104). -/
def ERLwF.init_gamma (args : Args) : ℝ := args.ema

/-- Concrete observe state over Nat inputs and labels, parametrized by the
EMA coefficient, used to exercise the theorems at explicit inputs. -/
noncomputable def stateW (g : ℝ) : ObserveState Nat Nat :=
  { net := fun _ => [], old_net := fun _ => [], lossFn := fun _ _ => 0,
    netParams := [10], oldParams := [20], optStep := fun p => p,
    bufferEmpty := true, buf_inputs := [], buf_inputs_aug := [],
    buf_labels := [], alpha := 0, softmax_temp := 1, gamma := g }

/-- C1: the loss returned by ERLwF.observe is the replay cross-entropy plus
alpha / 4 times the stable KL distillation penalty against the old network:
on the plain batch when the buffer is empty, and otherwise on the batch,
labels and not-augmented batch each concatenated with the corresponding
component of the buffer.get_data triple. -/
theorem C1_observe_loss_formula {I L : Type} (s : ObserveState I L)
    (inputs : List I) (labels : List L) (not_aug_inputs : List I)
    (epoch : Option Nat) :
    (ERLwF.observe s inputs labels not_aug_inputs epoch).retVal =
      (if s.bufferEmpty then
        s.lossFn (s.net inputs) labels
          + s.alpha / 4 * kl_divergence_stable (s.net inputs)
              (s.old_net not_aug_inputs) s.softmax_temp
      else
        s.lossFn (s.net (inputs ++ s.buf_inputs_aug)) (labels ++ s.buf_labels)
          + s.alpha / 4 * kl_divergence_stable
              (s.net (inputs ++ s.buf_inputs_aug))
              (s.old_net (not_aug_inputs ++ s.buf_inputs)) s.softmax_temp) := by
  by_cases h : s.bufferEmpty <;>
    simp [ERLwF.observe, Tensor0.item, h]

/-- C2: the value ERLwF.observe returns is the scalar item() of the loss
tensor it computed, matching the training-loop signature
observe(inputs, labels, not_aug_inputs, epoch) returning a scalar loss. -/
theorem C2_observe_returns_scalar_item {I L : Type} (s : ObserveState I L)
    (inputs : List I) (labels : List L) (not_aug_inputs : List I)
    (epoch : Option Nat) :
    (ERLwF.observe s inputs labels not_aug_inputs epoch).retVal =
      (ERLwF.observe_loss s inputs labels not_aug_inputs).item := rfl

/-- C3: the observe function of models/temp.py and ERLwF.observe of
models/er_lwf.py are duplicates: from identical state and arguments they
return the same loss and produce the same parameter and buffer effects. -/
theorem C3_temp_observe_duplicate {I L : Type} (s : ObserveState I L)
    (inputs : List I) (labels : List L) (not_aug_inputs : List I)
    (epoch : Option Nat) :
    temp.observe s inputs labels not_aug_inputs epoch =
      ERLwF.observe s inputs labels not_aug_inputs epoch := rfl

/-- C5: after begin_task the installed teacher has exactly the parameter
values of the current network and every one of its parameters has
requires_grad set to false. -/
theorem C5_begin_task_frozen_copy (net : Net) :
    (ERLwF.begin_task net).params.map Param.data = net.params.map Param.data
      ∧ (ERLwF.begin_task net).params.all
          (fun p => !p.requires_grad) = true := by
  constructor
  · simp [ERLwF.begin_task, List.map_map]
  · simp [ERLwF.begin_task, List.all_eq_true]

/-- C8: every observe call invokes buffer.add_data exactly once, with the
original not_aug_inputs as examples and, whenever inputs and labels have
the same batch size, with exactly the original labels argument; replayed
samples are never re-added. -/
theorem C8_add_data_once_original_labels {I L : Type} (s : ObserveState I L)
    (inputs : List I) (labels : List L) (not_aug_inputs : List I)
    (epoch : Option Nat) (h : labels.length = inputs.length) :
    (ERLwF.observe s inputs labels not_aug_inputs epoch).addDataCalls =
      [(not_aug_inputs, labels)] := by
  by_cases hb : s.bufferEmpty <;>
    simp [ERLwF.observe, hb, ← h, List.take_length, List.take_left]

/-- C8 witness: a concrete call where add_data receives exactly the
original not-augmented inputs and labels. -/
theorem C8_add_data_once_original_labels_witness :
    ([5] : List Nat).length = ([4] : List Nat).length ∧
      (ERLwF.observe (stateW 0) [4] [5] [6] none).addDataCalls = [([6], [5])] :=
  ⟨rfl, C8_add_data_once_original_labels (stateW 0) [4] [5] [6] none rfl⟩

/-- C9: with the parser default ema = 0.0, gamma is 0 and observe leaves
every teacher parameter unchanged: the teacher stays exactly as set by the
most recent begin_task. -/
theorem C9_default_ema_keeps_teacher {I L : Type} (s : ObserveState I L)
    (inputs : List I) (labels : List L) (not_aug_inputs : List I)
    (epoch : Option Nat)
    (h : s.gamma = ERLwF.init_gamma ERLwF.parser_defaults) :
    (ERLwF.observe s inputs labels not_aug_inputs epoch).oldParams =
      s.oldParams := by
  have h0 : s.gamma = 0 := h
  simp [ERLwF.observe, h0]

/-- C9 witness: a concrete observe call with the default ema leaves the
teacher parameters untouched. -/
theorem C9_default_ema_keeps_teacher_witness :
    (stateW 0).gamma = ERLwF.init_gamma ERLwF.parser_defaults ∧
      (ERLwF.observe (stateW 0) [1] [2] [3] none).oldParams =
        (stateW 0).oldParams :=
  ⟨by simp [stateW, ERLwF.init_gamma, ERLwF.parser_defaults],
   C9_default_ema_keeps_teacher (stateW 0) [1] [2] [3] none
     (by simp [stateW, ERLwF.init_gamma, ERLwF.parser_defaults])⟩

/-- C4: when gamma is positive, observe rewrites every teacher parameter in
the zipped range to gamma times its previous value plus (1 - gamma) times
the corresponding network parameter after the optimizer step. -/
theorem C4_ema_teacher_update {I L : Type} (s : ObserveState I L)
    (inputs : List I) (labels : List L) (not_aug_inputs : List I)
    (epoch : Option Nat) (k : ℕ) (pt ps : ℝ)
    (hg : 0 < s.gamma)
    (hold : s.oldParams.get? k = some pt)
    (hnew : (ERLwF.observe s inputs labels not_aug_inputs
        epoch).netParams.get? k = some ps) :
    (ERLwF.observe s inputs labels not_aug_inputs epoch).oldParams.get? k
      = some (s.gamma * pt + (1 - s.gamma) * ps) := by
  have hnew2 : (s.optStep s.netParams).get? k = some ps := hnew
  have hkN : k < (s.optStep s.netParams).length := (List.get?_eq_some.mp hnew2).1
  have hkO : k < s.oldParams.length := (List.get?_eq_some.mp hold).1
  have hres : (ERLwF.observe s inputs labels not_aug_inputs epoch).oldParams
      = ERLwF.update_teacher s.gamma (s.optStep s.netParams) s.oldParams := by
    simp [ERLwF.observe, hg]
  rw [hres]
  simp only [ERLwF.update_teacher]
  have hkz : k < (List.zipWith (fun ps pt => s.gamma * pt + (1 - s.gamma) * ps)
      (s.optStep s.netParams) s.oldParams).length := by
    rw [List.length_zipWith]; exact lt_min hkN hkO
  rw [List.get?_eq_getElem?, List.getElem?_append_left hkz,
    ← List.get?_eq_getElem?, List.get?_zipWith_eq_some]
  exact ⟨ps, pt, hnew2, hold, rfl⟩

/-- C4 witness: a concrete observe call with gamma = 1 where the single
teacher parameter becomes the EMA combination of its old value 20 and the
post-step network parameter 10. -/
theorem C4_ema_teacher_update_witness :
    0 < (stateW 1).gamma ∧
      (ERLwF.observe (stateW 1) [7] [8] [9] none).oldParams.get? 0
        = some ((stateW 1).gamma * 20 + (1 - (stateW 1).gamma) * 10) :=
  ⟨zero_lt_one,
   C4_ema_teacher_update (stateW 1) [7] [8] [9] none 0 20 10
     zero_lt_one rfl rfl⟩

/-- The softmax denominator of a nonempty row is positive. -/
theorem sumExp_pos (r : List ℝ) (h : r ≠ []) : 0 < sumExp r := by
  unfold sumExp
  apply List.sum_pos
  · intro x hx
    obtain ⟨y, _, rfl⟩ := List.mem_map.mp hx
    exact Real.exp_pos y
  · simpa using h

/-- Shifting every entry of a row by c multiplies its softmax denominator
by exp c. -/
theorem sumExp_shift (r : List ℝ) (c : ℝ) :
    sumExp (r.map (fun x => x + c)) = sumExp r * Real.exp c := by
  unfold sumExp
  rw [List.map_map, ← List.sum_map_mul_right]
  congr 1
  congr 1
  funext x
  simp [Function.comp, Real.exp_add]

/-- Real-number log_softmax of a row is invariant under adding one constant
to every entry of the row. -/
theorem log_softmax_row_shift (r : List ℝ) (c : ℝ) :
    log_softmax_row (r.map (fun x => x + c)) = log_softmax_row r := by
  rcases eq_or_ne r [] with h | h
  · subst h; rfl
  · unfold log_softmax_row
    rw [sumExp_shift,
      Real.log_mul (ne_of_gt (sumExp_pos r h)) (Real.exp_ne_zero c),
      Real.log_exp, List.map_map]
    congr 1
    funext x
    simp [Function.comp]

/-- Add the constant c uniformly to row k of a logits matrix, leaving every
other row unchanged. -/
noncomputable def addToRow : Mat → ℕ → ℝ → Mat
  | [], _, _ => []
  | r :: rs, 0, c => r.map (fun x => x + c) :: rs
  | r :: rs, Nat.succ k, c => r :: addToRow rs k c

/-- log_softmax of a batch ignores a uniform shift of any single row. -/
theorem log_softmax_addToRow (m : Mat) (k : ℕ) (c : ℝ) :
    log_softmax (addToRow m k c) = log_softmax m := by
  induction m generalizing k with
  | nil => cases k <;> rfl
  | cons r rs ih =>
    cases k with
    | zero => simp [addToRow, log_softmax, log_softmax_row_shift]
    | succ k =>
      have hih := ih k
      simp only [log_softmax] at hih
      simp [addToRow, log_softmax, hih]

/-- Temperature scaling turns a uniform shift of row k by c into a uniform
shift of row k by c / T. -/
theorem scaleDiv_addToRow (m : Mat) (k : ℕ) (c T : ℝ) :
    scaleDiv (addToRow m k c) T = addToRow (scaleDiv m T) k (c / T) := by
  induction m generalizing k with
  | nil => cases k <;> rfl
  | cons r rs ih =>
    cases k with
    | zero =>
      simp only [addToRow, scaleDiv, List.map_cons, List.map_map]
      congr 1
      congr 1
      funext x
      simp [Function.comp, add_div]
    | succ k =>
      have hih := ih k
      simp only [scaleDiv] at hih
      simp [addToRow, scaleDiv, hih]

/-- C10: kl_divergence_stable is unchanged when one row of the student
logits, or one row of the teacher logits, is shifted by a constant, because
both arguments pass through log_softmax after temperature scaling. -/
theorem C10_kl_shift_invariant (s t : Mat) (k : ℕ) (c T : ℝ) (hT : 0 < T) :
    kl_divergence_stable (addToRow s k c) t T = kl_divergence_stable s t T ∧
      kl_divergence_stable s (addToRow t k c) T =
        kl_divergence_stable s t T := by
  constructor
  · simp only [kl_divergence_stable]
    rw [scaleDiv_addToRow, log_softmax_addToRow]
  · simp only [kl_divergence_stable]
    rw [scaleDiv_addToRow, log_softmax_addToRow]

/-- C10 witness: a concrete shift of one row on either side leaves the
divergence unchanged. -/
theorem C10_kl_shift_invariant_witness :
    (0 : ℝ) < 1 ∧
      (kl_divergence_stable (addToRow [[1, 2]] 0 3) [[0, 0]] 1 =
          kl_divergence_stable [[1, 2]] [[0, 0]] 1 ∧
        kl_divergence_stable [[1, 2]] (addToRow [[0, 0]] 0 3) 1 =
          kl_divergence_stable [[1, 2]] [[0, 0]] 1) :=
  ⟨zero_lt_one, C10_kl_shift_invariant [[1, 2]] [[0, 0]] 0 3 1 zero_lt_one⟩

/-- Abstract fallible tensor framework: each operation that ERLwF.observe
invokes may fail with a framework error of type E (for example a tensor
shape mismatch), modelled with Except. -/
structure FW (I L E : Type) where
  catI : List I → List I → Except E (List I)
  catL : List L → List L → Except E (List L)
  net : List I → Except E Mat
  old_net : List I → Except E Mat
  lossFn : Mat → List L → Except E ℝ
  klDiv : Mat → Mat → ℝ → Except E ℝ
  backwardStep : ℝ → Except E Unit
  addData : List I → List L → Except E Unit

/-- Tail of ERLwF.observe after the buffer-augmentation step, with every
framework call fallible, in the statement order of models/er_lwf.py lines
271-286: forward pass, criterion, teacher forward, KL term, backward and
optimizer step, add_data. -/
noncomputable def ERLwF.observeE_core {I L E : Type} (fw : FW I L E)
    (real_batch_size : ℕ) (alpha softmax_temp : ℝ) (not_aug_inputs : List I)
    (itl : List I × List I × List L) : Except E ℝ :=
  match fw.net itl.1 with
  | Except.error e => Except.error e
  | Except.ok outputs =>
    match fw.lossFn outputs itl.2.2 with
    | Except.error e => Except.error e
    | Except.ok l1 =>
      match fw.old_net itl.2.1 with
      | Except.error e => Except.error e
      | Except.ok logits =>
        match fw.klDiv outputs logits softmax_temp with
        | Except.error e => Except.error e
        | Except.ok kv =>
          match fw.backwardStep (l1 + alpha / 4 * kv) with
          | Except.error e => Except.error e
          | Except.ok _ =>
            match fw.addData not_aug_inputs
                (itl.2.2.take real_batch_size) with
            | Except.error e => Except.error e
            | Except.ok _ => Except.ok (l1 + alpha / 4 * kv)

/-- ERLwF.observe with its framework calls fallible: the buffer
augmentation concatenates inputs, not-augmented inputs and labels with the
get_data triple when the buffer is not empty, then the loss tail runs. -/
noncomputable def ERLwF.observeE {I L E : Type} (fw : FW I L E)
    (bufferEmpty : Bool) (buf_inputs buf_inputs_aug : List I)
    (buf_labels : List L) (alpha softmax_temp : ℝ)
    (inputs : List I) (labels : List L) (not_aug_inputs : List I) :
    Except E ℝ :=
  let itlE : Except E (List I × List I × List L) :=
    if bufferEmpty then Except.ok (inputs, not_aug_inputs, labels)
    else
      match fw.catI inputs buf_inputs_aug with
      | Except.error e => Except.error e
      | Except.ok i2 =>
        match fw.catI not_aug_inputs buf_inputs with
        | Except.error e => Except.error e
        | Except.ok t2 =>
          match fw.catL labels buf_labels with
          | Except.error e => Except.error e
          | Except.ok l2 => Except.ok (i2, t2, l2)
  match itlE with
  | Except.error e => Except.error e
  | Except.ok itl =>
      ERLwF.observeE_core fw inputs.length alpha softmax_temp
        not_aug_inputs itl

/-- The error e is one that some operation of the framework fw produces. -/
def FW.mayRaise {I L E : Type} (fw : FW I L E) (e : E) : Prop :=
  (∃ a b, fw.catI a b = Except.error e) ∨
  (∃ a b, fw.catL a b = Except.error e) ∨
  (∃ a, fw.net a = Except.error e) ∨
  (∃ a, fw.old_net a = Except.error e) ∨
  (∃ o l, fw.lossFn o l = Except.error e) ∨
  (∃ o l t, fw.klDiv o l t = Except.error e) ∨
  (∃ x, fw.backwardStep x = Except.error e) ∨
  (∃ a b, fw.addData a b = Except.error e)

/-- The loss tail either succeeds or fails with an error some framework
operation produced. -/
theorem observeE_core_ok_or_raised {I L E : Type} (fw : FW I L E)
    (rbs : ℕ) (alpha softmax_temp : ℝ) (n : List I)
    (itl : List I × List I × List L) :
    (∃ v, ERLwF.observeE_core fw rbs alpha softmax_temp n itl
        = Except.ok v) ∨
    (∃ e, ERLwF.observeE_core fw rbs alpha softmax_temp n itl
        = Except.error e ∧ fw.mayRaise e) := by
  cases hnet : fw.net itl.1 with
  | error e =>
    refine Or.inr ⟨e, ?_, Or.inr (Or.inr (Or.inl ⟨itl.1, hnet⟩))⟩
    simp [ERLwF.observeE_core, hnet]
  | ok outputs =>
    cases hloss : fw.lossFn outputs itl.2.2 with
    | error e =>
      refine Or.inr ⟨e, ?_,
        Or.inr (Or.inr (Or.inr (Or.inr (Or.inl ⟨outputs, itl.2.2, hloss⟩))))⟩
      simp [ERLwF.observeE_core, hnet, hloss]
    | ok l1 =>
      cases hon : fw.old_net itl.2.1 with
      | error e =>
        refine Or.inr ⟨e, ?_,
          Or.inr (Or.inr (Or.inr (Or.inl ⟨itl.2.1, hon⟩)))⟩
        simp [ERLwF.observeE_core, hnet, hloss, hon]
      | ok logits =>
        cases hkl : fw.klDiv outputs logits softmax_temp with
        | error e =>
          refine Or.inr ⟨e, ?_,
            Or.inr (Or.inr (Or.inr (Or.inr (Or.inr (Or.inl
              ⟨outputs, logits, softmax_temp, hkl⟩)))))⟩
          simp [ERLwF.observeE_core, hnet, hloss, hon, hkl]
        | ok kv =>
          cases hbs : fw.backwardStep (l1 + alpha / 4 * kv) with
          | error e =>
            refine Or.inr ⟨e, ?_,
              Or.inr (Or.inr (Or.inr (Or.inr (Or.inr (Or.inr
                (Or.inl ⟨l1 + alpha / 4 * kv, hbs⟩))))))⟩
            simp [ERLwF.observeE_core, hnet, hloss, hon, hkl, hbs]
          | ok u =>
            cases had : fw.addData n (itl.2.2.take rbs) with
            | error e =>
              refine Or.inr ⟨e, ?_,
                Or.inr (Or.inr (Or.inr (Or.inr (Or.inr (Or.inr (Or.inr
                  ⟨n, itl.2.2.take rbs, had⟩))))))⟩
              simp [ERLwF.observeE_core, hnet, hloss, hon, hkl, hbs, had]
            | ok u2 =>
              refine Or.inl ⟨l1 + alpha / 4 * kv, ?_⟩
              simp [ERLwF.observeE_core, hnet, hloss, hon, hkl, hbs, had]

/-- C6: observe performs no input validation and no exception handling of
its own: every run either succeeds, or returns unchanged an error that one
of the framework operations produced; in particular the error of the first
framework call made (the buffer concatenation when the buffer is not empty,
the forward pass when it is) propagates as is. -/
theorem C6_observe_propagates_framework_errors {I L E : Type}
    (fw : FW I L E) (bufferEmpty : Bool)
    (buf_inputs buf_inputs_aug : List I) (buf_labels : List L)
    (alpha softmax_temp : ℝ) (inputs : List I) (labels : List L)
    (not_aug_inputs : List I) :
    ((∃ v, ERLwF.observeE fw bufferEmpty buf_inputs buf_inputs_aug buf_labels
        alpha softmax_temp inputs labels not_aug_inputs = Except.ok v) ∨
      (∃ e, ERLwF.observeE fw bufferEmpty buf_inputs buf_inputs_aug buf_labels
          alpha softmax_temp inputs labels not_aug_inputs = Except.error e ∧
        fw.mayRaise e)) ∧
    (∀ e, bufferEmpty = false →
      fw.catI inputs buf_inputs_aug = Except.error e →
      ERLwF.observeE fw bufferEmpty buf_inputs buf_inputs_aug buf_labels
        alpha softmax_temp inputs labels not_aug_inputs = Except.error e) ∧
    (∀ e, bufferEmpty = true →
      fw.net inputs = Except.error e →
      ERLwF.observeE fw bufferEmpty buf_inputs buf_inputs_aug buf_labels
        alpha softmax_temp inputs labels not_aug_inputs = Except.error e) := by
  refine ⟨?_, ?_, ?_⟩
  · cases hbe : bufferEmpty with
    | true =>
      have h := observeE_core_ok_or_raised fw inputs.length alpha softmax_temp
        not_aug_inputs (inputs, not_aug_inputs, labels)
      simpa [ERLwF.observeE] using h
    | false =>
      cases h1 : fw.catI inputs buf_inputs_aug with
      | error e =>
        refine Or.inr ⟨e, ?_, Or.inl ⟨inputs, buf_inputs_aug, h1⟩⟩
        simp [ERLwF.observeE, h1]
      | ok i2 =>
        cases h2 : fw.catI not_aug_inputs buf_inputs with
        | error e =>
          refine Or.inr ⟨e, ?_, Or.inl ⟨not_aug_inputs, buf_inputs, h2⟩⟩
          simp [ERLwF.observeE, h1, h2]
        | ok t2 =>
          cases h3 : fw.catL labels buf_labels with
          | error e =>
            refine Or.inr ⟨e, ?_, Or.inr (Or.inl ⟨labels, buf_labels, h3⟩)⟩
            simp [ERLwF.observeE, h1, h2, h3]
          | ok l2 =>
            have h := observeE_core_ok_or_raised fw inputs.length alpha
              softmax_temp not_aug_inputs (i2, t2, l2)
            simpa [ERLwF.observeE, h1, h2, h3] using h
  · intro e hbe hcat
    subst hbe
    simp [ERLwF.observeE, hcat]
  · intro e hbe hnet
    subst hbe
    simp [ERLwF.observeE, ERLwF.observeE_core, hnet]

/-- Concrete fallible framework over Nat data whose concatenation always
fails with error 7 and whose remaining operations succeed. -/
noncomputable def fwW : FW Nat Nat Nat :=
  { catI := fun _ _ => Except.error 7, catL := fun _ _ => Except.ok [],
    net := fun _ => Except.ok [], old_net := fun _ => Except.ok [],
    lossFn := fun _ _ => Except.ok 0, klDiv := fun _ _ _ => Except.ok 0,
    backwardStep := fun _ => Except.ok Unit.unit,
    addData := fun _ _ => Except.ok Unit.unit }

/-- C6 witness: with a non-empty buffer, the error of the failing
concatenation propagates unchanged out of observe. -/
theorem C6_observe_propagates_framework_errors_witness :
    fwW.catI [1] [] = Except.error 7 ∧
      ERLwF.observeE fwW false [] [] [] 0 1 [1] [2] [3] = Except.error 7 :=
  ⟨rfl,
   (C6_observe_propagates_framework_errors fwW false [] [] [] 0 1
       [1] [2] [3]).2.1 7 rfl rfl⟩
